import Mathlib

/-!
Verification of the linkbay-ai orchestration core against its design
specification.  The Python sources under `linkbay_ai/` are shallowly
embedded: pure functions become Lean functions, stateful methods become
explicit state-passing functions, `datetime` values become rational time
coordinates, Python `int` becomes `Int`/`Nat`, optional values become
`Option`, and raised exceptions become `Except`/`Option` results.
-/

namespace LinkbayAI

/-! ## Conversation window (`conversation.py`, `schemas.py`) -/

/-- Embeds `schemas.Message`: role, content and an optional token count.
The `timestamp` metadata field is omitted: no verified property observes it. -/
structure Message where
  role : String
  content : String
  tokens : Option Int
deriving DecidableEq

/-- Embeds `schemas.ConversationConfig` with its pydantic defaults. -/
structure ConversationConfig where
  max_messages : Nat := 10
  context_window : Nat := 4096
  summarize_old_messages : Bool := true
deriving DecidableEq

/-- Embeds the mutable state of `conversation.ConversationContext`. -/
structure ConversationContext where
  config : ConversationConfig
  history : List Message
  total_tokens : Int
deriving DecidableEq

/-- Embeds `ConversationContext.__init__`: empty history, zero token total. -/
def ConversationContext.init (config : ConversationConfig) : ConversationContext :=
  ⟨config, [], 0⟩

/-- Token contribution of a message to the running total.  Python guards the
additions with `if tokens:`, so `None` contributes nothing and `0` is skipped,
which coincides with adding `0`; any other value is added as-is. -/
def tokContrib (m : Message) : Int :=
  m.tokens.getD 0

/-- Embeds `ConversationContext._manage_context_window`: pop messages from the
front while the history is longer than `max_messages`, subtracting each evicted
message's token count (when truthy) from the running total. -/
def _manage_context_window (maxm : Nat) : List Message → Int → List Message × Int
  | [], t => ([], t)
  | m :: rest, t =>
    if maxm < (m :: rest).length then
      _manage_context_window maxm rest (t - tokContrib m)
    else
      (m :: rest, t)

/-- Embeds `ConversationContext.add_message`: append a `Message`, add its
token count (if truthy) to the running total, then manage the window. -/
def ConversationContext.add_message (c : ConversationContext)
    (role content : String) (tokens : Option Int) : ConversationContext :=
  let msg : Message := ⟨role, content, tokens⟩
  let t := c.total_tokens + tokContrib msg
  let p := _manage_context_window c.config.max_messages (c.history ++ [msg]) t
  { c with history := p.1, total_tokens := p.2 }

/-- Embeds `ConversationContext.get_messages`.  Python tests `if last_n:`,
so both `None` and `0` return the full history; a positive `n` returns the
slice `history[-n:]`, i.e. the suffix after dropping `length - n` elements. -/
def ConversationContext.get_messages (c : ConversationContext)
    (last_n : Option Nat) : List Message :=
  match last_n with
  | some n => if n = 0 then c.history else c.history.drop (c.history.length - n)
  | none => c.history

/-- Embeds `ConversationContext.clear`. -/
def ConversationContext.clear (c : ConversationContext) : ConversationContext :=
  { c with history := [], total_tokens := 0 }

/-- Embeds `ConversationContext.add_system_prompt`: insert a system message at
position 0.  Note that the source performs no window management here. -/
def ConversationContext.add_system_prompt (c : ConversationContext)
    (prompt : String) : ConversationContext :=
  { c with history := ⟨"system", prompt, none⟩ :: c.history }

/-- The conversation-state invariant claimed by the spec: bounded length and a
token total equal to the sum of the known token counts of retained messages. -/
def convInvariant (c : ConversationContext) : Prop :=
  c.history.length ≤ c.config.max_messages ∧
  c.total_tokens = (c.history.map tokContrib).sum

/-! ## Routing policy (`core.py`, `_smart_route_model`) -/

/-- Embeds the `reasoning_keywords` table of `_smart_route_model`. -/
def reasoning_keywords : List String :=
  ["analizza", "ragiona", "spiega perché", "confronta",
   "valuta", "quale è meglio", "pro e contro", "calcola",
   "risolvi", "dimostra", "deduce"]

/-- Embeds the `simple_keywords` table of `_smart_route_model`. -/
def simple_keywords : List String :=
  ["traduci", "riassumi", "lista", "elenca",
   "genera html", "formato json"]

/-- Embeds Python `str.lower` on one character of the Basic Latin and
Latin-1 range: the uppercase letters `A`–`Z` and `À`–`Þ` (the latter minus
the multiplication sign `×`, which is not a letter) map down by 32; every
other code point below 256 is caseless or already lowercase and is left
unchanged.  This agrees with `str.lower` on all of Latin-1 — in particular on
the accented `é`/`è` appearing in the reasoning keywords.  Python's full
Unicode case mapping beyond Latin-1 (which can even change the character
count) is not modelled, so the routing theorems restrict prompts to Latin-1
via `latin1`. -/
def pyLower (c : Char) : Char :=
  if ('A' ≤ c ∧ c ≤ 'Z') ∨ ('À' ≤ c ∧ c ≤ 'Þ' ∧ c ≠ '×') then
    Char.ofNat (c.toNat + 32)
  else c

/-- Embeds Python `str.lower` (see `pyLower`). -/
def strLower (s : String) : String :=
  ⟨s.data.map pyLower⟩

/-- The domain on which `pyLower` is exactly Python `str.lower`: strings
whose characters all lie below code point 256 (Basic Latin + Latin-1). -/
@[reducible]
def latin1 (s : String) : Prop :=
  ∀ c ∈ s.data, c.toNat < 256

/-- Embeds `AIOrchestrator._smart_route_model`: lowercase the prompt, return
the reasoning model if any reasoning keyword occurs as a substring, otherwise
the chat model (for both the simple-keyword branch and the default branch). -/
def _smart_route_model (prompt : String) : String :=
  let prompt_lower := strLower prompt
  if reasoning_keywords.any (fun k => decide (k.data <:+: prompt_lower.data)) then
    "deepseek-reasoner"
  else if simple_keywords.any (fun k => decide (k.data <:+: prompt_lower.data)) then
    "deepseek-chat"
  else
    "deepseek-chat"

/-! ## Backend adapters and the failover executor (`providers.py`, `core.py`) -/

/-- Embeds `schemas.ToolCall`.  The `arguments` dictionary is kept opaque as
its serialized form: no verified property inspects it. -/
structure ToolCall where
  name : String
  arguments : String
deriving DecidableEq

/-- Embeds `schemas.AIResponse` with its pydantic defaults. -/
structure AIResponse where
  content : String
  model : String
  provider : String
  tokens_used : Nat := 0
  cached : Bool := false
  tool_calls : Option (List ToolCall) := none
deriving DecidableEq

/-- Embeds `schemas.GenerationParams`.  The float `temperature` becomes a
rational; tool definitions are kept opaque as serialized strings. -/
structure GenerationParams where
  model : String
  max_tokens : Nat := 1000
  stream : Bool := false
  temperature : ℚ := 7/10
  tools : Option (List String) := none
deriving DecidableEq

/-- Embeds a registered `BaseProvider` as the orchestrator observes it during
one request: its name, the result of the `is_available()` probe (called once
per provider per execution), and an outcome oracle giving the result of the
k-th `chat(messages, params)` call made to it within the execution — `none`
models a raised exception, `some r` a returned response. -/
structure Provider where
  name : String
  available : Bool
  chatOutcome : List Message → GenerationParams → Nat → Option AIResponse

/-- Embeds one entry of `AIOrchestrator.provider_stats`. -/
structure ProviderStats where
  requests : Nat
  successes : Nat
  failures : Nat
deriving DecidableEq

/-- Errors raised by `_execute_with_fallback`: the `ValueError` for an empty
provider list and `AllProvidersFailedException`. -/
inductive ExecError where
  | valueError : String → ExecError
  | allProvidersFailed : String → ExecError
deriving DecidableEq

/-- Recognizes an `AllProvidersFailedException` outcome. -/
def isAPF : Except ExecError AIResponse → Bool
  | .error (.allProvidersFailed _) => true
  | _ => false

/-- Embeds the inner retry loop of `_execute_with_fallback` for one provider:
`for attempt in range(max_retries)`, incrementing `requests` on every try,
`successes` and returning on success, `failures` and retrying on exception.
`attempt` is the index of the next call, `remaining` the tries left. -/
def runRetries (p : Provider) (messages : List Message) (params : GenerationParams)
    (s : ProviderStats) (attempt : Nat) : Nat → ProviderStats × Option AIResponse
  | 0 => (s, none)
  | remaining + 1 =>
    let s1 : ProviderStats := { s with requests := s.requests + 1 }
    match p.chatOutcome messages params attempt with
    | some resp => ({ s1 with successes := s1.successes + 1 }, some resp)
    | none =>
      runRetries p messages params { s1 with failures := s1.failures + 1 }
        (attempt + 1) remaining

/-- Embeds the provider loop of `_execute_with_fallback`: skip unavailable
providers, run the retry loop on each available one, return on the first
success, and raise `AllProvidersFailedException` when the list is exhausted. -/
def execLoop (messages : List Message) (params : GenerationParams)
    (max_retries : Nat) :
    List Provider → (String → ProviderStats) →
    (String → ProviderStats) × Except ExecError AIResponse
  | [], stats =>
    (stats, .error (.allProvidersFailed
      "Tutti i provider AI hanno fallito. Verifica la connessione e le API keys."))
  | p :: rest, stats =>
    if p.available then
      let r := runRetries p messages params (stats p.name) 0 max_retries
      let stats1 := Function.update stats p.name r.1
      match r.2 with
      | some resp => (stats1, .ok resp)
      | none => execLoop messages params max_retries rest stats1
    else
      execLoop messages params max_retries rest stats

/-- Embeds `AIOrchestrator._execute_with_fallback`.  The per-name statistics
dictionary is modelled as a total map (registration initializes an entry for
every registered provider name). -/
def _execute_with_fallback (messages : List Message) (params : GenerationParams)
    (providers : List Provider) (stats : String → ProviderStats)
    (max_retries : Nat) :
    (String → ProviderStats) × Except ExecError AIResponse :=
  if providers.isEmpty then
    (stats, .error (.valueError "Nessun provider configurato"))
  else
    execLoop messages params max_retries providers stats

/-! ## Semantic cache (`semantic_cache.py`) -/

/-- Embeds `schemas.CacheEntry`.  Embedding coordinates become rationals and
the `datetime` timestamp becomes a rational time coordinate. -/
structure CacheEntry where
  query : String
  embedding : List ℚ
  response : String
  timestamp : ℚ
  hits : Nat
deriving DecidableEq

/-- Embeds the state of `SemanticCache`.  The optional sentence-transformer
model is represented by the `embeddings_available` flag together with an
encoding oracle `embedModel` (`none` models an `encode` failure); `ttl` is the
`timedelta` as a rational duration on the same time axis as the entry
timestamps. -/
structure SemanticCache where
  threshold : ℚ := 95/100
  max_entries : Nat := 1000
  ttl : ℚ
  cache : List CacheEntry
  embeddings_available : Bool
  embedModel : String → Option (List ℚ)

/-- Embeds `np.dot` on two equal-dimension vectors. -/
def dotList (a b : List ℚ) : ℚ :=
  (List.zipWith (fun x y => x * y) a b).sum

/-- Sum of squares of a vector's coordinates; `np.linalg.norm` is its square
root. -/
def sumSq (v : List ℚ) : ℚ :=
  (v.map (fun x => x * x)).sum

/-- Embeds `SemanticCache._cosine_similarity`, which divides the dot product
by the product of the norms with no zero-norm guard.  A zero denominator makes
the IEEE quotient NaN (0/0); this undefined outcome is modelled as `none`.
The decidable guard `sumSq a * sumSq b = 0` is equivalent to the vanishing of
the product of norms (proved below). -/
noncomputable def _cosine_similarity (a b : List ℚ) : Option ℝ :=
  if sumSq a * sumSq b = 0 then none
  else some ((dotList a b : ℝ) /
    (Real.sqrt (sumSq a : ℝ) * Real.sqrt (sumSq b : ℝ)))

/-- Embeds `SemanticCache._get_embedding`. -/
def _get_embedding (c : SemanticCache) (text : String) : Option (List ℚ) :=
  if c.embeddings_available then c.embedModel text else none

/-- Stable insertion of an entry into a list sorted by descending hit count:
the entry goes before the first element with at most as many hits.
`sortByHitsDesc` folds the input from the right, so each element is inserted
into the sorted image of the elements originally after it and, landing before
its ties, keeps its original relative order among them.  Python's
`list.sort(key=..., reverse=True)` is a stable descending sort by hits, and
any two stable sorts with the same key produce the same output list, so this
insertion sort embeds it exactly. -/
def insertByHits (e : CacheEntry) : List CacheEntry → List CacheEntry
  | [] => [e]
  | x :: xs => if x.hits ≤ e.hits then e :: x :: xs else x :: insertByHits e xs

/-- Stable sort by descending hit count (see `insertByHits`). -/
def sortByHitsDesc : List CacheEntry → List CacheEntry
  | [] => []
  | x :: xs => insertByHits x (sortByHitsDesc xs)

/-- Embeds `SemanticCache._cleanup_old_entries` at time `now`: keep entries
with `now - timestamp < ttl`, then, if still over capacity, sort by descending
hit count and keep the first `max_entries`. -/
def _cleanup_old_entries (c : SemanticCache) (now : ℚ) : SemanticCache :=
  let kept := c.cache.filter (fun e => now - e.timestamp < c.ttl)
  if c.max_entries < kept.length then
    { c with cache := (sortByHitsDesc kept).take c.max_entries }
  else
    { c with cache := kept }

open Classical in
/-- Embeds the best-match loop of `SemanticCache.get_cached_response`:
`best_match`/`best_similarity` start at `None`/`0.0`; each entry whose
similarity is strictly above the current best and at least the threshold
becomes the new best.  The best match is tracked by its index `i` into the
current cache list so the hit-counter update can be applied to it.  An
undefined (NaN) similarity fails both float comparisons, as in Python. -/
noncomputable def findBest (qe : List ℚ) (thr : ℚ) :
    List CacheEntry → Nat → ℝ → Option Nat → Option Nat
  | [], _, _, best => best
  | e :: rest, i, bestSim, best =>
    match _cosine_similarity qe e.embedding with
    | none => findBest qe thr rest (i + 1) bestSim best
    | some s =>
      if bestSim < s ∧ (thr : ℝ) ≤ s then
        findBest qe thr rest (i + 1) s (some i)
      else
        findBest qe thr rest (i + 1) bestSim best

/-- Embeds the part of `SemanticCache.get_cached_response` that runs on the
state left by `_cleanup_old_entries`: embed the query (a `None` embedding is a
miss), search for the best match at or above the threshold, and on a match
increment its hit counter and return its response. -/
noncomputable def getAfterCleanup (c1 : SemanticCache) (query : String) :
    SemanticCache × Option String :=
  match _get_embedding c1 query with
  | none => (c1, none)
  | some qe =>
    match findBest qe c1.threshold c1.cache 0 0 none with
    | none => (c1, none)
    | some i =>
      match c1.cache.get? i with
      | none => (c1, none)
      | some e =>
        ({ c1 with cache := c1.cache.set i { e with hits := e.hits + 1 } },
          some e.response)

/-- Embeds `SemanticCache.get_cached_response` at time `now`: report a miss
(with the state untouched) when embeddings are unavailable; otherwise prune
expired entries and continue with `getAfterCleanup` on the pruned state.  The
returned pair is the updated cache state and the optional response. -/
noncomputable def get_cached_response (c : SemanticCache) (query : String)
    (now : ℚ) : SemanticCache × Option String :=
  if c.embeddings_available then
    getAfterCleanup (_cleanup_old_entries c now) query
  else
    (c, none)

/-- Embeds `SemanticCache.cache_response` at time `now`: no-op when the
embedding capability is absent or encoding fails, otherwise append a fresh
entry with zero hits. -/
def cache_response (c : SemanticCache) (query response : String)
    (now : ℚ) : SemanticCache :=
  match _get_embedding c query with
  | none => c
  | some emb =>
    { c with cache := c.cache ++ [⟨query, emb, response, now, 0⟩] }

/-! ## Budget governor and tools manager (spec-modelled collaborators)

`core.py` imports `CostController` from `cost_controller.py` and
`ToolsManager` from `tools.py`; neither file is part of the provided sources,
so these collaborators are modelled from the specification (§4.2 Budget
Governor, §4.6 tool-call resolution). -/

/-- Embeds `schemas.BudgetConfig` with its pydantic defaults (the float cost
ceiling and alert fraction become rationals). -/
structure BudgetConfig where
  max_tokens_per_hour : Nat := 100000
  max_tokens_per_day : Nat := 1000000
  max_cost_per_hour : ℚ := 10
  alert_threshold : ℚ := 8/10
deriving DecidableEq

/-- Modelled from the spec: the `BudgetState` of §3 — hourly/daily token
counters with window-start timestamps and an accumulated cost estimate.  Time
is a rational number of hours, so the hourly window has length 1 and the
daily window length 24. -/
structure BudgetState where
  hourly_tokens : Nat
  daily_tokens : Nat
  hour_start : ℚ
  day_start : ℚ
  cost : ℚ
deriving DecidableEq

/-- Modelled from the spec: `CostController.check_budget` of §4.2
(`cost_controller.py` is missing from the sources).  A pure check that fails
with a `BudgetExceeded` message when usage plus the estimate would exceed the
hourly token ceiling, the daily token ceiling, or the hourly cost ceiling
(cost estimated via the external per-model price lookup); counters whose
window has elapsed are read as zero (lazy reset). -/
def check_budget (cfg : BudgetConfig) (st : BudgetState) (now : ℚ)
    (estimated : Nat) (model : String) (price : String → ℚ) : Option String :=
  let hourly : Nat := if 1 ≤ now - st.hour_start then 0 else st.hourly_tokens
  let daily : Nat := if 24 ≤ now - st.day_start then 0 else st.daily_tokens
  let cost : ℚ := if 1 ≤ now - st.hour_start then 0 else st.cost
  if cfg.max_tokens_per_hour < hourly + estimated then
    some "Budget orario superato"
  else if cfg.max_tokens_per_day < daily + estimated then
    some "Budget giornaliero superato"
  else if cfg.max_cost_per_hour < cost + price model * estimated then
    some "Budget di costo superato"
  else
    none

/-- Modelled from the spec: `CostController.record_usage` of §4.2
(`cost_controller.py` is missing from the sources).  Unconditionally commits
actual consumption, restarting any window observed to have elapsed. -/
def record_usage (st : BudgetState) (now : ℚ) (tokens : Nat)
    (model : String) (price : String → ℚ) : BudgetState :=
  let hourElapsed := 1 ≤ now - st.hour_start
  let dayElapsed := 24 ≤ now - st.day_start
  { hourly_tokens := (if hourElapsed then 0 else st.hourly_tokens) + tokens,
    daily_tokens := (if dayElapsed then 0 else st.daily_tokens) + tokens,
    hour_start := if hourElapsed then now else st.hour_start,
    day_start := if dayElapsed then now else st.day_start,
    cost := (if hourElapsed then 0 else st.cost) + price model * tokens }

/-- Modelled from the spec: the tool-execution capability of §4.6 (`tools.py`
is missing from the sources) — a list of serialized tool definitions, a
sequential execution oracle, and a serialization of the collected results. -/
structure ToolsManager where
  tool_definitions : List String
  execute_tool : ToolCall → String
  serialize : List String → String

/-! ## Orchestration engine (`core.py`, `AIOrchestrator.chat`) -/

/-- Embeds one entry of `AIOrchestrator.request_history`. -/
structure RequestRecord where
  prompt : String
  model : String
  provider : String
  tokens : Nat
  cached : Bool
deriving DecidableEq

/-- Embeds the state of `AIOrchestrator`.  `price` is the external per-model
price lookup used by the budget governor. -/
structure Orchestrator where
  providers : List Provider
  provider_stats : String → ProviderStats
  budget_config : BudgetConfig
  budget : BudgetState
  semantic_cache : Option SemanticCache
  conversation : ConversationContext
  tools_manager : Option ToolsManager
  request_history : List RequestRecord
  price : String → ℚ

/-- Exceptions surfaced by `AIOrchestrator.chat`. -/
inductive ChatError where
  | budgetExceeded : String → ChatError
  | valueError : String → ChatError
  | allProvidersFailed : String → ChatError
deriving DecidableEq

/-- Counts maximal whitespace-free runs in a character list; the flag records
whether the previous character was inside a word. -/
def countWordsAux : List Char → Bool → Nat
  | [], _ => 0
  | c :: cs, inWord =>
    if c.isWhitespace then countWordsAux cs false
    else (if inWord then 0 else 1) + countWordsAux cs true

/-- Embeds `len(prompt.split())`: the number of maximal whitespace-free runs
of the prompt. -/
def countWords (s : String) : Nat :=
  countWordsAux s.data false

/-- Embeds steps 8–11 of `AIOrchestrator.chat` for a response obtained from a
provider: conversation commit, cache store, usage record, analytics append. -/
def chatFinish (o : Orchestrator) (prompt model : String)
    (use_conversation use_cache : Bool) (response : AIResponse) (now : ℚ) :
    Orchestrator × Except ChatError AIResponse :=
  let o1 := if use_conversation then
      { o with conversation := (o.conversation.add_message "assistant"
          response.content (some (response.tokens_used : Int))) }
    else o
  let o2 := if use_cache ∧ o1.semantic_cache.isSome ∧ response.cached = false then
      { o1 with semantic_cache := (o1.semantic_cache.map
          (fun sc => cache_response sc prompt response.content now)) }
    else o1
  let o3 := { o2 with budget := (record_usage o2.budget now response.tokens_used
      model o2.price) }
  let o4 := { o3 with request_history := (o3.request_history ++
      [⟨prompt, model, response.provider, response.tokens_used, response.cached⟩]) }
  (o4, .ok response)

/-- Embeds steps 2–11 of `AIOrchestrator.chat` (everything after the cache
probe): conversation append, smart routing, budget check, failover execution,
the optional single tool-call round, and `chatFinish`. -/
noncomputable def chatAfterCache (o : Orchestrator) (prompt : String)
    (model? : Option String) (use_conversation use_cache use_tools : Bool)
    (max_retries : Nat) (now : ℚ) : Orchestrator × Except ChatError AIResponse :=
  let o1 := if use_conversation then
      { o with conversation := o.conversation.add_message "user" prompt none }
    else o
  let messages := if use_conversation then o1.conversation.get_messages none
    else [⟨"user", prompt, none⟩]
  let model := model?.getD (_smart_route_model prompt)
  let estimated := 2 * countWords prompt
  match check_budget o1.budget_config o1.budget now estimated model o1.price with
  | some msg => (o1, .error (.budgetExceeded msg))
  | none =>
    let params : GenerationParams :=
      { model := model,
        tools := if use_tools ∧ o1.tools_manager.isSome then
            o1.tools_manager.map ToolsManager.tool_definitions
          else none }
    let r := _execute_with_fallback messages params o1.providers
      o1.provider_stats max_retries
    let o2 := { o1 with provider_stats := r.1 }
    match r.2 with
    | .error (.valueError s) => (o2, .error (.valueError s))
    | .error (.allProvidersFailed s) => (o2, .error (.allProvidersFailed s))
    | .ok response =>
      if (response.tool_calls.getD []) ≠ [] ∧ o2.tools_manager.isSome then
        match o2.tools_manager with
        | none => chatFinish o2 prompt model use_conversation use_cache response now
        | some tm =>
          let tool_result := (response.tool_calls.getD []).map tm.execute_tool
          let o3 := { o2 with conversation :=
            ((o2.conversation.add_message "assistant" response.content none).add_message
              "system" ("Tool result: " ++ tm.serialize tool_result) none) }
          let messages2 := o3.conversation.get_messages none
          let r2 := _execute_with_fallback messages2 params o3.providers
            o3.provider_stats max_retries
          let o4 := { o3 with provider_stats := r2.1 }
          match r2.2 with
          | .error (.valueError s) => (o4, .error (.valueError s))
          | .error (.allProvidersFailed s) => (o4, .error (.allProvidersFailed s))
          | .ok response2 =>
            chatFinish o4 prompt model use_conversation use_cache response2 now
      else
        chatFinish o2 prompt model use_conversation use_cache response now

/-- Embeds `AIOrchestrator.chat`.  Step 1 probes the semantic cache; the probe
result is subject to Python `if cached:` truthiness, so only a non-empty
cached string causes the early return, while a hit on an empty-string
response (and a miss) falls through to the rest of the pipeline with the
mutated cache state kept. -/
noncomputable def chat (o : Orchestrator) (prompt : String)
    (model? : Option String) (use_conversation use_cache use_tools : Bool)
    (max_retries : Nat) (now : ℚ) : Orchestrator × Except ChatError AIResponse :=
  if use_cache ∧ o.semantic_cache.isSome then
    match o.semantic_cache with
    | none =>
      chatAfterCache o prompt model? use_conversation use_cache use_tools
        max_retries now
    | some sc =>
      let gr := get_cached_response sc prompt now
      let oc := { o with semantic_cache := some gr.1 }
      match gr.2 with
      | some cached =>
        if cached ≠ "" then
          (oc, .ok ⟨cached, "cached", "cache", 0, true, none⟩)
        else
          chatAfterCache oc prompt model? use_conversation use_cache use_tools
            max_retries now
      | none =>
        chatAfterCache oc prompt model? use_conversation use_cache use_tools
          max_retries now
  else
    chatAfterCache o prompt model? use_conversation use_cache use_tools
      max_retries now

/-! ## Lemmas about the conversation window -/

theorem manage_length_le (maxm : Nat) (h : List Message) :
    ∀ t, (_manage_context_window maxm h t).1.length ≤ maxm := by
  induction h with
  | nil => intro t; simp [_manage_context_window]
  | cons m rest ih =>
    intro t
    rw [_manage_context_window]
    by_cases hc : maxm < (m :: rest).length
    · rw [if_pos hc]; exact ih _
    · rw [if_neg hc]; simp only [List.length_cons] at hc ⊢; omega

theorem manage_sum (maxm : Nat) (h : List Message) :
    ∀ t, t = (h.map tokContrib).sum →
      (_manage_context_window maxm h t).2 =
        ((_manage_context_window maxm h t).1.map tokContrib).sum := by
  induction h with
  | nil => intro t ht; simpa [_manage_context_window] using ht
  | cons m rest ih =>
    intro t ht
    rw [_manage_context_window]
    by_cases hc : maxm < (m :: rest).length
    · rw [if_pos hc]
      apply ih
      rw [ht, List.map_cons, List.sum_cons]
      ring
    · rw [if_neg hc]
      exact ht

theorem add_message_invariant (c : ConversationContext) (role content : String)
    (tok : Option Int) (hsum : c.total_tokens = (c.history.map tokContrib).sum) :
    convInvariant (c.add_message role content tok) := by
  unfold convInvariant ConversationContext.add_message
  refine ⟨manage_length_le _ _ _, ?_⟩
  apply manage_sum
  rw [hsum, List.map_append, List.sum_append]
  simp

theorem foldl_add_message_invariant
    (calls : List (String × String × Option Int)) :
    ∀ c : ConversationContext, convInvariant c →
      convInvariant (calls.foldl
        (fun c args => c.add_message args.1 args.2.1 args.2.2) c) := by
  induction calls with
  | nil => intro c hc; exact hc
  | cons a rest ih =>
    intro c hc
    exact ih _ (add_message_invariant c a.1 a.2.1 a.2.2 hc.2)

/-- C2: for every sequence of `add_message` calls on a conversation window
started in its initial state, after each append completes the history length
is at most `max_messages` and the running token total equals the sum of the
known token counts of the retained messages (every prefix of `calls` is
itself such a sequence, so the statement covers each intermediate state). -/
theorem conversation_append_invariant (cfg : ConversationConfig)
    (calls : List (String × String × Option Int)) :
    convInvariant (calls.foldl
      (fun c args => c.add_message args.1 args.2.1 args.2.2)
      (ConversationContext.init cfg)) := by
  apply foldl_add_message_invariant
  constructor
  · simp [ConversationContext.init]
  · simp [ConversationContext.init]

/-- C8 counterexample: `add_system_prompt` performs no window management, so
with `max_messages = 1` and a full window the insertion leaves 2 messages —
the claimed bound fails after this mutation. -/
theorem add_system_prompt_breaks_bound :
    (((ConversationContext.init ⟨1, 4096, true⟩).add_message "user" "hi"
        none).add_system_prompt "sys").config.max_messages = 1 ∧
    1 < (((ConversationContext.init ⟨1, 4096, true⟩).add_message "user" "hi"
        none).add_system_prompt "sys").history.length := by
  constructor
  · rfl
  · decide

/-- C8 amended: after `add_message` or `clear` completes the history length is
at most `max_messages`, but `add_system_prompt` always grows the history by
one message without eviction, so it can exceed the bound. -/
theorem mutation_length_bounds (c : ConversationContext)
    (role content sys : String) (tok : Option Int) :
    (c.add_message role content tok).history.length ≤ c.config.max_messages ∧
    c.clear.history.length ≤ c.config.max_messages ∧
    (c.add_system_prompt sys).history.length = c.history.length + 1 := by
  refine ⟨manage_length_le _ _ _, ?_, ?_⟩
  · simp [ConversationContext.clear]
  · simp [ConversationContext.add_system_prompt]

/-- C9 counterexample: `get_messages` tests Python truthiness of `last_n`, so
`last_n = 0` returns the full one-message history instead of the empty list of
"the last 0 messages". -/
theorem get_messages_zero_returns_history :
    (((ConversationContext.init ⟨10, 4096, true⟩).add_message "user" "hi"
        none).get_messages (some 0)).length = 1 := by
  decide

/-- C9 amended: for every positive `n`, `get_messages (some n)` is a suffix of
the history of length `min n (history length)` — the last `n` messages — and
`get_messages none` returns the full history; the accessor reads the state
without modifying it.  For `n = 0` the code instead returns the full history
(Python truthiness). -/
theorem get_messages_last_n (c : ConversationContext) (n : Nat) (hn : 1 ≤ n) :
    (∃ front, c.history = front ++ c.get_messages (some n)) ∧
    (c.get_messages (some n)).length = min n c.history.length ∧
    c.get_messages none = c.history := by
  have hne : ¬ n = 0 := by omega
  have hmsg : c.get_messages (some n) = c.history.drop (c.history.length - n) := by
    simp only [ConversationContext.get_messages]
    rw [if_neg hne]
  refine ⟨⟨c.history.take (c.history.length - n), ?_⟩, ?_, rfl⟩
  · rw [hmsg]
    exact (List.take_append_drop _ _).symm
  · rw [hmsg, List.length_drop]
    omega

/-- Closed witness for `get_messages_last_n` at a two-message history and
`n = 1`. -/
theorem get_messages_last_n_witness :
    1 ≤ 1 ∧
    ((∃ front,
        (ConversationContext.mk ⟨10, 4096, true⟩
          [⟨"user", "a", none⟩, ⟨"assistant", "b", none⟩] 0).history =
          front ++ (ConversationContext.mk ⟨10, 4096, true⟩
            [⟨"user", "a", none⟩, ⟨"assistant", "b", none⟩] 0).get_messages
              (some 1)) ∧
      ((ConversationContext.mk ⟨10, 4096, true⟩
          [⟨"user", "a", none⟩, ⟨"assistant", "b", none⟩] 0).get_messages
            (some 1)).length =
        min 1 (ConversationContext.mk ⟨10, 4096, true⟩
          [⟨"user", "a", none⟩, ⟨"assistant", "b", none⟩] 0).history.length ∧
      (ConversationContext.mk ⟨10, 4096, true⟩
          [⟨"user", "a", none⟩, ⟨"assistant", "b", none⟩] 0).get_messages
            none =
        (ConversationContext.mk ⟨10, 4096, true⟩
          [⟨"user", "a", none⟩, ⟨"assistant", "b", none⟩] 0).history) :=
  ⟨Nat.le_refl 1,
    get_messages_last_n
      (ConversationContext.mk ⟨10, 4096, true⟩
        [⟨"user", "a", none⟩, ⟨"assistant", "b", none⟩] 0) 1 (Nat.le_refl 1)⟩

/-! ## Lemmas about the routing policy -/

theorem smart_route_eq_ite (r : String) :
    _smart_route_model r =
      if ∃ k ∈ reasoning_keywords, k.data <:+: (strLower r).data then
        "deepseek-reasoner"
      else "deepseek-chat" := by
  unfold _smart_route_model
  by_cases hr : ∃ k ∈ reasoning_keywords, k.data <:+: (strLower r).data
  · rw [if_pos hr, if_pos]
    rw [List.any_eq_true]
    obtain ⟨k, hk, hink⟩ := hr
    exact ⟨k, hk, by simpa using hink⟩
  · rw [if_neg hr, if_neg]
    · exact ite_self _
    · rw [List.any_eq_true]
      rintro ⟨k, hk, hink⟩
      exact hr ⟨k, hk, by simpa using hink⟩

/-- C6: on Latin-1 prompts (where `strLower` is exactly Python `str.lower`)
the routing policy is a pure function of the lowercased prompt: any two such
prompts with the same lowercased form route identically; a prompt whose
lowercased form contains a reasoning keyword as a substring routes to the
reasoning tier, and otherwise (whether or not a fast/simple keyword matches)
routing returns the fast tier. -/
theorem smart_route_tiers (p q : String) (_hp : latin1 p) (_hq : latin1 q)
    (h : strLower p = strLower q) :
    _smart_route_model p = _smart_route_model q ∧
    ((∃ k ∈ reasoning_keywords, k.data <:+: (strLower p).data) →
      _smart_route_model p = "deepseek-reasoner") ∧
    (¬ (∃ k ∈ reasoning_keywords, k.data <:+: (strLower p).data) →
      _smart_route_model p = "deepseek-chat") := by
  refine ⟨?_, ?_, ?_⟩
  · rw [smart_route_eq_ite p, smart_route_eq_ite q, h]
  · intro hk; rw [smart_route_eq_ite p, if_pos hk]
  · intro hk; rw [smart_route_eq_ite p, if_neg hk]

/-- Closed witness for `smart_route_tiers`: the upper-case variant of the
accented reasoning keyword "spiega perché" lowercases to the keyword itself
and routes to the reasoning tier, like its lowercase twin. -/
theorem smart_route_tiers_witness :
    latin1 "SPIEGA PERCHÉ" ∧ latin1 "spiega perché" ∧
    strLower "SPIEGA PERCHÉ" = strLower "spiega perché" ∧
    (∃ k ∈ reasoning_keywords, k.data <:+: (strLower "SPIEGA PERCHÉ").data) ∧
    _smart_route_model "SPIEGA PERCHÉ" = "deepseek-reasoner" :=
  ⟨by decide, by decide, by decide, by decide,
    (smart_route_tiers "SPIEGA PERCHÉ" "spiega perché" (by decide) (by decide)
      (by decide)).2.1 (by decide)⟩

/-! ## Lemmas about the failover executor -/

theorem runRetries_always_fail (p : Provider) (msgs : List Message)
    (params : GenerationParams)
    (hfail : ∀ k, p.chatOutcome msgs params k = none) :
    ∀ (n : Nat) (s : ProviderStats) (a : Nat),
      runRetries p msgs params s a n =
        (⟨s.requests + n, s.successes, s.failures + n⟩, none) := by
  intro n
  induction n with
  | zero => intro s a; simp [runRetries]
  | succ n ih =>
    intro s a
    rw [runRetries, hfail a, ih]
    have h1 : s.requests + 1 + n = s.requests + (n + 1) := by omega
    have h2 : s.failures + 1 + n = s.failures + (n + 1) := by omega
    simp only [h1, h2]

theorem runRetries_first_success (p : Provider) (msgs : List Message)
    (params : GenerationParams) (r : AIResponse)
    (h : p.chatOutcome msgs params 0 = some r) (n : Nat) (hn : 1 ≤ n)
    (s : ProviderStats) :
    runRetries p msgs params s 0 n =
      (⟨s.requests + 1, s.successes + 1, s.failures⟩, some r) := by
  match n, hn with
  | n + 1, _ => rw [runRetries, h]

theorem execLoop_skip_unavailable (msgs : List Message)
    (params : GenerationParams) (maxR : Nat) (pre : List Provider)
    (hpre : ∀ p ∈ pre, p.available = false) :
    ∀ (rest : List Provider) (stats : String → ProviderStats),
      execLoop msgs params maxR (pre ++ rest) stats =
        execLoop msgs params maxR rest stats := by
  induction pre with
  | nil => intro rest stats; rfl
  | cons q qs ih =>
    intro rest stats
    rw [List.cons_append, execLoop]
    rw [if_neg (by simp [hpre q (List.mem_cons_self q qs)])]
    exact ih (fun p hp => hpre p (List.mem_cons_of_mem q hp)) rest stats

/-- C1: when the adapters ahead of `A` and between `A` and `B` are all
unavailable (so `A` and `B` are the first and second available adapters in
priority order), `A` is available and always raises, and `B` is available and
succeeds on its first call, `_execute_with_fallback` returns `B`'s response,
`A`'s counters show `maxR` attempts and `maxR` failures (one increment per
try), and `B`'s counters show exactly one success. -/
theorem fallback_returns_second_available (msgs : List Message)
    (params : GenerationParams) (pre mid post : List Provider) (A B : Provider)
    (stats0 : String → ProviderStats) (maxR : Nat) (r : AIResponse)
    (hpre : ∀ p ∈ pre, p.available = false)
    (hmid : ∀ p ∈ mid, p.available = false)
    (hA : A.available = true)
    (hAfail : ∀ k, A.chatOutcome msgs params k = none)
    (hB : B.available = true)
    (hBsucc : B.chatOutcome msgs params 0 = some r)
    (hname : A.name ≠ B.name)
    (hA0 : stats0 A.name = ⟨0, 0, 0⟩)
    (hB0 : stats0 B.name = ⟨0, 0, 0⟩)
    (hmaxR : 1 ≤ maxR) :
    (_execute_with_fallback msgs params (pre ++ A :: (mid ++ B :: post))
        stats0 maxR).2 = .ok r ∧
    (_execute_with_fallback msgs params (pre ++ A :: (mid ++ B :: post))
        stats0 maxR).1 A.name = ⟨maxR, 0, maxR⟩ ∧
    (_execute_with_fallback msgs params (pre ++ A :: (mid ++ B :: post))
        stats0 maxR).1 B.name = ⟨1, 1, 0⟩ := by
  have hne : (pre ++ A :: (mid ++ B :: post)).isEmpty = false := by
    simp [List.isEmpty_iff]
  have step :
      _execute_with_fallback msgs params (pre ++ A :: (mid ++ B :: post))
          stats0 maxR =
        (Function.update (Function.update stats0 A.name ⟨maxR, 0, maxR⟩)
          B.name ⟨1, 1, 0⟩, .ok r) := by
    rw [_execute_with_fallback, hne]
    simp only [Bool.false_eq_true, if_false]
    rw [execLoop_skip_unavailable msgs params maxR pre hpre]
    rw [execLoop, if_pos hA]
    simp only
    rw [runRetries_always_fail A msgs params hAfail maxR (stats0 A.name) 0, hA0]
    simp only
    rw [execLoop_skip_unavailable msgs params maxR mid hmid]
    rw [execLoop, if_pos hB]
    simp only
    rw [Function.update_noteq (Ne.symm hname), hB0]
    rw [runRetries_first_success B msgs params r hBsucc maxR hmaxR]
    simp
  refine ⟨by rw [step], ?_, ?_⟩
  · rw [step]
    simp only
    rw [Function.update_noteq hname, Function.update_same]
  · rw [step]
    simp only
    rw [Function.update_same]

/-- Closed witness for `fallback_returns_second_available`: a concrete
always-failing first adapter and an immediately succeeding second adapter
with `maxRetries = 2`, matching the spec scenario. -/
theorem fallback_returns_second_available_witness :
    1 ≤ 2 ∧
    ((_execute_with_fallback [⟨"user", "hello", none⟩]
        ⟨"deepseek-chat", 1000, false, 7/10, none⟩
        ([] ++ (⟨"deepseek", true, fun _ _ _ => none⟩ : Provider) ::
          ([] ++ (⟨"openai", true, fun _ _ _ =>
              some ⟨"ok", "deepseek-chat", "openai", 10, false, none⟩⟩ :
            Provider) :: []))
        (fun _ => ⟨0, 0, 0⟩) 2).2 =
      .ok ⟨"ok", "deepseek-chat", "openai", 10, false, none⟩ ∧
    (_execute_with_fallback [⟨"user", "hello", none⟩]
        ⟨"deepseek-chat", 1000, false, 7/10, none⟩
        ([] ++ (⟨"deepseek", true, fun _ _ _ => none⟩ : Provider) ::
          ([] ++ (⟨"openai", true, fun _ _ _ =>
              some ⟨"ok", "deepseek-chat", "openai", 10, false, none⟩⟩ :
            Provider) :: []))
        (fun _ => ⟨0, 0, 0⟩) 2).1 "deepseek" = ⟨2, 0, 2⟩ ∧
    (_execute_with_fallback [⟨"user", "hello", none⟩]
        ⟨"deepseek-chat", 1000, false, 7/10, none⟩
        ([] ++ (⟨"deepseek", true, fun _ _ _ => none⟩ : Provider) ::
          ([] ++ (⟨"openai", true, fun _ _ _ =>
              some ⟨"ok", "deepseek-chat", "openai", 10, false, none⟩⟩ :
            Provider) :: []))
        (fun _ => ⟨0, 0, 0⟩) 2).1 "openai" = ⟨1, 1, 0⟩) :=
  ⟨by omega,
    fallback_returns_second_available [⟨"user", "hello", none⟩]
      ⟨"deepseek-chat", 1000, false, 7/10, none⟩ [] [] []
      ⟨"deepseek", true, fun _ _ _ => none⟩
      ⟨"openai", true, fun _ _ _ =>
        some ⟨"ok", "deepseek-chat", "openai", 10, false, none⟩⟩
      (fun _ => ⟨0, 0, 0⟩) 2 ⟨"ok", "deepseek-chat", "openai", 10, false, none⟩
      (by intro p hp; cases hp) (by intro p hp; cases hp) rfl
      (fun _ => rfl) rfl rfl (by decide) rfl rfl (by omega)⟩

/-- C3 counterexample: with an empty adapter list no adapter ever succeeds,
yet `_execute_with_fallback` raises `ValueError("Nessun provider
configurato")`, not `AllProvidersFailed`. -/
theorem empty_providers_raise_value_error :
    (_execute_with_fallback [⟨"user", "hello", none⟩]
        ⟨"deepseek-chat", 1000, false, 7/10, none⟩ [] (fun _ => ⟨0, 0, 0⟩)
        3).2 = .error (.valueError "Nessun provider configurato") ∧
    isAPF (_execute_with_fallback [⟨"user", "hello", none⟩]
        ⟨"deepseek-chat", 1000, false, 7/10, none⟩ [] (fun _ => ⟨0, 0, 0⟩)
        3).2 = false := by
  exact ⟨rfl, rfl⟩

theorem runRetries_none_iff (p : Provider) (msgs : List Message)
    (params : GenerationParams) :
    ∀ (n : Nat) (s : ProviderStats) (a : Nat),
      ((runRetries p msgs params s a n).2 = none ↔
        ∀ k < n, p.chatOutcome msgs params (a + k) = none) := by
  intro n
  induction n with
  | zero =>
    intro s a
    simp [runRetries]
  | succ n ih =>
    intro s a
    rw [runRetries]
    cases h : p.chatOutcome msgs params a with
    | some r =>
      simp only [h]
      constructor
      · intro hfalse; cases hfalse
      · intro hall
        have h0 := hall 0 (by omega)
        rw [Nat.add_zero] at h0
        rw [h0] at h
        cases h
    | none =>
      simp only [h]
      rw [ih]
      constructor
      · intro hall k hk
        match k, hk with
        | 0, _ => simpa using h
        | k + 1, hk =>
          have := hall k (by omega)
          have harith : a + 1 + k = a + (k + 1) := by omega
          rwa [harith] at this
      · intro hall k hk
        have := hall (k + 1) (by omega)
        have harith : a + (k + 1) = a + 1 + k := by omega
        rwa [harith] at this

theorem execLoop_apf_iff (msgs : List Message) (params : GenerationParams)
    (maxR : Nat) :
    ∀ (l : List Provider) (stats : String → ProviderStats),
      (isAPF (execLoop msgs params maxR l stats).2 = true ↔
        ∀ p ∈ l, p.available = true →
          ∀ k < maxR, p.chatOutcome msgs params k = none) := by
  intro l
  induction l with
  | nil =>
    intro stats
    simp [execLoop, isAPF]
  | cons p rest ih =>
    intro stats
    rw [execLoop]
    cases hav : p.available with
    | false =>
      rw [if_neg (by simp)]
      rw [ih]
      constructor
      · intro hall q hq havq
        rcases List.mem_cons.mp hq with hq | hq
        · subst hq; rw [hav] at havq; cases havq
        · exact hall q hq havq
      · intro hall q hq havq
        exact hall q (List.mem_cons_of_mem p hq) havq
    | true =>
      rw [if_pos rfl]
      simp only
      cases hr : (runRetries p msgs params (stats p.name) 0 maxR).2 with
      | some resp =>
        simp only [hr, isAPF]
        constructor
        · intro hfalse; cases hfalse
        · intro hall
          have hp := hall p (List.mem_cons_self p rest) hav
          have : (runRetries p msgs params (stats p.name) 0 maxR).2 = none := by
            rw [runRetries_none_iff]
            intro k hk
            rw [Nat.zero_add]
            exact hp k hk
          rw [hr] at this
          cases this
      | none =>
        simp only [hr]
        rw [ih]
        have hp : ∀ k < maxR, p.chatOutcome msgs params k = none := by
          have := (runRetries_none_iff p msgs params maxR (stats p.name) 0).mp hr
          intro k hk
          have hk2 := this k hk
          rwa [Nat.zero_add] at hk2
        constructor
        · intro hall q hq havq
          rcases List.mem_cons.mp hq with hq | hq
          · subst hq; exact hp
          · exact hall q hq havq
        · intro hall q hq havq
          exact hall q (List.mem_cons_of_mem p hq) havq

/-- C3 amended: for a NONEMPTY adapter list, `_execute_with_fallback` fails
with `AllProvidersFailed` exactly when no available adapter's call ever
succeeds within its `maxRetries` attempts (in particular when every adapter's
availability probe returns false); the forward direction shows a transient
backend error surfaces as `AllProvidersFailed` only once every available
adapter in the list has exhausted its retries.  An EMPTY adapter list instead
raises `ValueError`. -/
theorem fallback_apf_iff_no_success (msgs : List Message)
    (params : GenerationParams) (providers : List Provider)
    (stats0 : String → ProviderStats) (maxR : Nat)
    (hne : providers ≠ []) :
    (isAPF (_execute_with_fallback msgs params providers stats0 maxR).2 = true ↔
      ∀ p ∈ providers, p.available = true →
        ∀ k < maxR, p.chatOutcome msgs params k = none) := by
  rw [_execute_with_fallback]
  have : providers.isEmpty = false := by
    cases providers with
    | nil => cases hne rfl
    | cons a l => rfl
  rw [this]
  simp only [Bool.false_eq_true, if_false]
  exact execLoop_apf_iff msgs params maxR providers stats0

/-- Closed witness for `fallback_apf_iff_no_success`: a single available
always-failing adapter with one retry yields `AllProvidersFailed`. -/
theorem fallback_apf_iff_no_success_witness :
    ((⟨"deepseek", true, fun _ _ _ => none⟩ : Provider) :: []) ≠ [] ∧
    (isAPF (_execute_with_fallback [⟨"user", "hello", none⟩]
        ⟨"deepseek-chat", 1000, false, 7/10, none⟩
        ((⟨"deepseek", true, fun _ _ _ => none⟩ : Provider) :: [])
        (fun _ => ⟨0, 0, 0⟩) 1).2 = true ↔
      ∀ p ∈ ((⟨"deepseek", true, fun _ _ _ => none⟩ : Provider) :: []),
        p.available = true →
          ∀ k < 1, p.chatOutcome [⟨"user", "hello", none⟩]
            ⟨"deepseek-chat", 1000, false, 7/10, none⟩ k = none) :=
  ⟨List.cons_ne_nil _ _,
    fallback_apf_iff_no_success [⟨"user", "hello", none⟩]
      ⟨"deepseek-chat", 1000, false, 7/10, none⟩
      ((⟨"deepseek", true, fun _ _ _ => none⟩ : Provider) :: [])
      (fun _ => ⟨0, 0, 0⟩) 1 (List.cons_ne_nil _ _)⟩

/-! ## Lemmas about the semantic cache -/

theorem sumSq_nonneg (v : List ℚ) : 0 ≤ sumSq v := by
  unfold sumSq
  apply List.sum_nonneg
  intro x hx
  obtain ⟨y, _, rfl⟩ := List.mem_map.mp hx
  exact mul_self_nonneg y

theorem sqrtProd_eq_zero_iff (a b : List ℚ) :
    Real.sqrt ((sumSq a : ℚ) : ℝ) * Real.sqrt ((sumSq b : ℚ) : ℝ) = 0 ↔
      sumSq a * sumSq b = 0 := by
  have ha := sumSq_nonneg a
  have hb := sumSq_nonneg b
  rw [mul_eq_zero, mul_eq_zero]
  constructor
  · rintro (h | h)
    · left
      have hle : ((sumSq a : ℚ) : ℝ) ≤ 0 := Real.sqrt_eq_zero'.mp h
      have : ((sumSq a : ℚ) : ℝ) = 0 :=
        le_antisymm hle (by exact_mod_cast ha)
      exact_mod_cast this
    · right
      have hle : ((sumSq b : ℚ) : ℝ) ≤ 0 := Real.sqrt_eq_zero'.mp h
      have : ((sumSq b : ℚ) : ℝ) = 0 :=
        le_antisymm hle (by exact_mod_cast hb)
      exact_mod_cast this
  · rintro (h | h)
    · left
      rw [show ((sumSq a : ℚ) : ℝ) = 0 by exact_mod_cast h, Real.sqrt_zero]
    · right
      rw [show ((sumSq b : ℚ) : ℝ) = 0 by exact_mod_cast h, Real.sqrt_zero]

/-- C4 counterexample: on the zero vectors the computation does NOT return 0 —
it divides by the zero product of norms, which is undefined (NaN); no
zero-norm guard exists in `_cosine_similarity`. -/
theorem cosine_zero_vectors_undefined :
    _cosine_similarity [(0 : ℚ)] [(0 : ℚ)] = none ∧
    (none : Option ℝ) ≠ some 0 := by
  constructor
  · unfold _cosine_similarity
    rw [if_pos (by norm_num [sumSq])]
  · simp

/-- C4 amended: `_cosine_similarity` performs the division unconditionally.
When the product of the two norms is zero the quotient is undefined (IEEE
NaN, modelled as `none`) rather than 0; for every other pair it returns the
dot product divided by the product of the norms. -/
theorem cosine_similarity_no_guard (a b : List ℚ) :
    (Real.sqrt ((sumSq a : ℚ) : ℝ) * Real.sqrt ((sumSq b : ℚ) : ℝ) = 0 →
      _cosine_similarity a b = none) ∧
    (Real.sqrt ((sumSq a : ℚ) : ℝ) * Real.sqrt ((sumSq b : ℚ) : ℝ) ≠ 0 →
      _cosine_similarity a b =
        some ((dotList a b : ℝ) /
          (Real.sqrt ((sumSq a : ℚ) : ℝ) * Real.sqrt ((sumSq b : ℚ) : ℝ)))) := by
  constructor
  · intro h
    unfold _cosine_similarity
    rw [if_pos ((sqrtProd_eq_zero_iff a b).mp h)]
  · intro h
    unfold _cosine_similarity
    rw [if_neg (fun hq => h ((sqrtProd_eq_zero_iff a b).mpr hq))]

/-- Closed witness for `cosine_similarity_no_guard` on the unit vectors. -/
theorem cosine_similarity_no_guard_witness :
    Real.sqrt ((sumSq ([1] : List ℚ) : ℚ) : ℝ) *
        Real.sqrt ((sumSq ([1] : List ℚ) : ℚ) : ℝ) ≠ 0 ∧
    _cosine_similarity [(1 : ℚ)] [(1 : ℚ)] =
      some ((dotList [1] [1] : ℝ) /
        (Real.sqrt ((sumSq ([1] : List ℚ) : ℚ) : ℝ) *
          Real.sqrt ((sumSq ([1] : List ℚ) : ℚ) : ℝ))) := by
  have hs : ((sumSq ([1] : List ℚ) : ℚ) : ℝ) = 1 := by
    norm_num [sumSq]
  have hne : Real.sqrt ((sumSq ([1] : List ℚ) : ℚ) : ℝ) *
      Real.sqrt ((sumSq ([1] : List ℚ) : ℚ) : ℝ) ≠ 0 := by
    rw [hs, Real.sqrt_one]
    norm_num
  exact ⟨hne, (cosine_similarity_no_guard [1] [1]).2 hne⟩

theorem insertByHits_perm (e : CacheEntry) (l : List CacheEntry) :
    List.Perm (insertByHits e l) (e :: l) := by
  induction l with
  | nil => exact List.Perm.refl _
  | cons x xs ih =>
    rw [insertByHits]
    by_cases hc : x.hits ≤ e.hits
    · rw [if_pos hc]
    · rw [if_neg hc]
      exact (ih.cons x).trans (List.Perm.swap e x xs)

theorem sortByHitsDesc_perm (l : List CacheEntry) :
    List.Perm (sortByHitsDesc l) l := by
  induction l with
  | nil => exact List.Perm.refl _
  | cons x xs ih =>
    rw [sortByHitsDesc]
    exact (insertByHits_perm x (sortByHitsDesc xs)).trans (ih.cons x)

theorem insertByHits_sorted (e : CacheEntry) (l : List CacheEntry)
    (h : List.Sorted (fun a b : CacheEntry => b.hits ≤ a.hits) l) :
    List.Sorted (fun a b : CacheEntry => b.hits ≤ a.hits) (insertByHits e l) := by
  induction l with
  | nil => simp [insertByHits]
  | cons x xs ih =>
    rw [List.sorted_cons] at h
    rw [insertByHits]
    by_cases hc : x.hits ≤ e.hits
    · rw [if_pos hc]
      rw [List.sorted_cons]
      refine ⟨?_, List.sorted_cons.mpr h⟩
      intro b hb
      rcases List.mem_cons.mp hb with hb | hb
      · subst hb; omega
      · have := h.1 b hb; omega
    · rw [if_neg hc]
      rw [List.sorted_cons]
      refine ⟨?_, ih h.2⟩
      intro b hb
      have hb2 : b ∈ e :: xs := (insertByHits_perm e xs).mem_iff.mp hb
      rcases List.mem_cons.mp hb2 with hb2 | hb2
      · subst hb2; omega
      · exact h.1 b hb2

theorem sortByHitsDesc_sorted (l : List CacheEntry) :
    List.Sorted (fun a b : CacheEntry => b.hits ≤ a.hits) (sortByHitsDesc l) := by
  induction l with
  | nil => simp [sortByHitsDesc]
  | cons x xs ih => exact insertByHits_sorted x (sortByHitsDesc xs) ih

theorem cleanup_cache_big (c : SemanticCache) (now : ℚ)
    (hlen : c.max_entries < (c.cache.filter
      (fun x => decide (now - x.timestamp < c.ttl))).length) :
    (_cleanup_old_entries c now).cache =
      (sortByHitsDesc (c.cache.filter
        (fun x => decide (now - x.timestamp < c.ttl)))).take c.max_entries := by
  simp only [_cleanup_old_entries]
  rw [if_pos hlen]

theorem cleanup_cache_small (c : SemanticCache) (now : ℚ)
    (hlen : ¬ c.max_entries < (c.cache.filter
      (fun x => decide (now - x.timestamp < c.ttl))).length) :
    (_cleanup_old_entries c now).cache =
      c.cache.filter (fun x => decide (now - x.timestamp < c.ttl)) := by
  simp only [_cleanup_old_entries]
  rw [if_neg hlen]

theorem cleanup_mem (c : SemanticCache) (now : ℚ) :
    ∀ e ∈ (_cleanup_old_entries c now).cache,
      e ∈ c.cache ∧ now - e.timestamp < c.ttl := by
  intro e he
  by_cases hlen : c.max_entries < (c.cache.filter
      (fun x => decide (now - x.timestamp < c.ttl))).length
  · rw [cleanup_cache_big c now hlen] at he
    have hs := List.mem_of_mem_take he
    have hf := (sortByHitsDesc_perm _).mem_iff.mp hs
    have := List.mem_filter.mp hf
    exact ⟨this.1, by simpa using this.2⟩
  · rw [cleanup_cache_small c now hlen] at he
    have := List.mem_filter.mp he
    exact ⟨this.1, by simpa using this.2⟩

/-- C7 counterexample: TTL pruning is part of the eviction pass but discards
by age regardless of hit count: the stale entry with 5 hits is discarded
while the fresh entry with 0 hits is retained, so it is not the case that
every retained entry's hit counter is at least every discarded entry's. -/
theorem ttl_discard_ignores_hits :
    (_cleanup_old_entries
        ⟨95/100, 1, 1,
          [⟨"a", [1], "ra", -5, 5⟩, ⟨"b", [1], "rb", 0, 0⟩], true,
          fun _ => none⟩ 0).cache = [⟨"b", [1], "rb", 0, 0⟩] ∧
    (⟨"a", [1], "ra", -5, 5⟩ : CacheEntry) ∈
      (⟨95/100, 1, 1,
        [⟨"a", [1], "ra", -5, 5⟩, ⟨"b", [1], "rb", 0, 0⟩], true,
        fun _ => none⟩ : SemanticCache).cache ∧
    (⟨"a", [1], "ra", -5, 5⟩ : CacheEntry) ∉
      (_cleanup_old_entries
        ⟨95/100, 1, 1,
          [⟨"a", [1], "ra", -5, 5⟩, ⟨"b", [1], "rb", 0, 0⟩], true,
          fun _ => none⟩ 0).cache ∧
    (⟨"b", [1], "rb", 0, 0⟩ : CacheEntry).hits <
      (⟨"a", [1], "ra", -5, 5⟩ : CacheEntry).hits := by
  have hclean : (_cleanup_old_entries
      ⟨95/100, 1, 1,
        [⟨"a", [1], "ra", -5, 5⟩, ⟨"b", [1], "rb", 0, 0⟩], true,
        fun _ => none⟩ 0).cache = [⟨"b", [1], "rb", 0, 0⟩] := by
    simp only [_cleanup_old_entries]
    norm_num [List.filter_cons, List.filter_nil]
  refine ⟨hclean, List.mem_cons_self _ _, ?_, by norm_num⟩
  rw [hclean]
  intro hmem
  simp at hmem

/-- C7 amended: after eviction (TTL pruning then capacity trimming) the cache
holds at most `max_entries` entries, and the CAPACITY-TRIMMING step is
frequency-based: every entry it retains has a hit counter at least that of
every TTL-surviving entry it discards.  Entries discarded by the TTL step,
however, are removed regardless of hit count. -/
theorem cleanup_bound_and_frequency (c : SemanticCache) (now : ℚ) :
    (_cleanup_old_entries c now).cache.length ≤ c.max_entries ∧
    ∀ e ∈ (_cleanup_old_entries c now).cache,
      ∀ d ∈ c.cache.filter (fun x => decide (now - x.timestamp < c.ttl)),
        d ∉ (_cleanup_old_entries c now).cache → d.hits ≤ e.hits := by
  by_cases hlen : c.max_entries < (c.cache.filter
      (fun x => decide (now - x.timestamp < c.ttl))).length
  · rw [cleanup_cache_big c now hlen]
    constructor
    · rw [List.length_take]
      omega
    · intro e he d hd hdn
      have hdsort : d ∈ sortByHitsDesc (c.cache.filter
          (fun x => decide (now - x.timestamp < c.ttl))) :=
        (sortByHitsDesc_perm _).mem_iff.mpr hd
      rw [← List.take_append_drop c.max_entries
        (sortByHitsDesc (c.cache.filter
          (fun x => decide (now - x.timestamp < c.ttl))))] at hdsort
      rcases List.mem_append.mp hdsort with hdt | hdd
      · exact absurd hdt hdn
      · have hpair := sortByHitsDesc_sorted (c.cache.filter
          (fun x => decide (now - x.timestamp < c.ttl)))
        unfold List.Sorted at hpair
        rw [← List.take_append_drop c.max_entries
          (sortByHitsDesc (c.cache.filter
            (fun x => decide (now - x.timestamp < c.ttl))))] at hpair
        exact (List.pairwise_append.mp hpair).2.2 e he d hdd
  · rw [cleanup_cache_small c now hlen]
    constructor
    · omega
    · intro e _ d hd hdn
      exact absurd hd hdn

/-- Closed witness for `cleanup_bound_and_frequency`: with capacity 2 and
fresh entries with 5, 1 and 3 hits, the trimming retains the 5- and 3-hit
entries; the discarded 1-hit entry has no more hits than the retained 3-hit
entry. -/
theorem cleanup_bound_and_frequency_witness :
    (⟨"c", [], "", 0, 3⟩ : CacheEntry) ∈
      (_cleanup_old_entries
        ⟨95/100, 2, 1,
          [⟨"a", [], "", 0, 5⟩, ⟨"b", [], "", 0, 1⟩, ⟨"c", [], "", 0, 3⟩],
          true, fun _ => none⟩ 0).cache ∧
    (⟨"b", [], "", 0, 1⟩ : CacheEntry) ∈
      (⟨95/100, 2, 1,
        [⟨"a", [], "", 0, 5⟩, ⟨"b", [], "", 0, 1⟩, ⟨"c", [], "", 0, 3⟩],
        true, fun _ => none⟩ : SemanticCache).cache.filter
        (fun x => decide ((0 : ℚ) - x.timestamp <
          (⟨95/100, 2, 1,
            [⟨"a", [], "", 0, 5⟩, ⟨"b", [], "", 0, 1⟩, ⟨"c", [], "", 0, 3⟩],
            true, fun _ => none⟩ : SemanticCache).ttl)) ∧
    (⟨"b", [], "", 0, 1⟩ : CacheEntry) ∉
      (_cleanup_old_entries
        ⟨95/100, 2, 1,
          [⟨"a", [], "", 0, 5⟩, ⟨"b", [], "", 0, 1⟩, ⟨"c", [], "", 0, 3⟩],
          true, fun _ => none⟩ 0).cache ∧
    (⟨"b", [], "", 0, 1⟩ : CacheEntry).hits ≤
      (⟨"c", [], "", 0, 3⟩ : CacheEntry).hits := by
  have hclean : (_cleanup_old_entries
      ⟨95/100, 2, 1,
        [⟨"a", [], "", 0, 5⟩, ⟨"b", [], "", 0, 1⟩, ⟨"c", [], "", 0, 3⟩],
        true, fun _ => none⟩ 0).cache =
      [⟨"a", [], "", 0, 5⟩, ⟨"c", [], "", 0, 3⟩] := by
    simp only [_cleanup_old_entries]
    norm_num [List.filter_cons, List.filter_nil, sortByHitsDesc, insertByHits,
      List.take_succ_cons, List.take_zero]
  have hfil : (⟨95/100, 2, 1,
      [⟨"a", [], "", 0, 5⟩, ⟨"b", [], "", 0, 1⟩, ⟨"c", [], "", 0, 3⟩],
      true, fun _ => none⟩ : SemanticCache).cache.filter
      (fun x => decide ((0 : ℚ) - x.timestamp <
        (⟨95/100, 2, 1,
          [⟨"a", [], "", 0, 5⟩, ⟨"b", [], "", 0, 1⟩, ⟨"c", [], "", 0, 3⟩],
          true, fun _ => none⟩ : SemanticCache).ttl)) =
      [⟨"a", [], "", 0, 5⟩, ⟨"b", [], "", 0, 1⟩, ⟨"c", [], "", 0, 3⟩] := by
    norm_num [List.filter_cons, List.filter_nil]
  refine ⟨?_, ?_, ?_, ?_⟩
  · rw [hclean]
    exact List.mem_cons_of_mem _ (List.mem_cons_self _ _)
  · rw [hfil]
    exact List.mem_cons_of_mem _ (List.mem_cons_self _ _)
  · rw [hclean]
    intro hmem
    simp at hmem
  · refine (cleanup_bound_and_frequency
      ⟨95/100, 2, 1,
        [⟨"a", [], "", 0, 5⟩, ⟨"b", [], "", 0, 1⟩, ⟨"c", [], "", 0, 3⟩],
        true, fun _ => none⟩ 0).2
      ⟨"c", [], "", 0, 3⟩ ?_ ⟨"b", [], "", 0, 1⟩ ?_ ?_
    · rw [hclean]
      exact List.mem_cons_of_mem _ (List.mem_cons_self _ _)
    · rw [hfil]
      exact List.mem_cons_of_mem _ (List.mem_cons_self _ _)
    · rw [hclean]
      intro hmem
      simp at hmem

theorem getAfterCleanup_some (c1 : SemanticCache) (query : String)
    (resp : String) (h : (getAfterCleanup c1 query).2 = some resp) :
    ∃ e ∈ c1.cache, resp = e.response := by
  rw [getAfterCleanup] at h
  rcases hqe : _get_embedding c1 query with _ | qe
  · simp only [hqe] at h
    cases h
  · simp only [hqe] at h
    rcases hfb : findBest qe c1.threshold c1.cache 0 0 none with _ | i
    · simp only [hfb] at h
      cases h
    · simp only [hfb] at h
      rcases hg : c1.cache.get? i with _ | e
      · simp only [hg] at h
        cases h
      · simp only [hg] at h
        exact ⟨e, List.get?_mem hg, (Option.some.inj h).symm⟩

/-- C5: whenever `get_cached_response` returns a response, that response
belongs to an entry of the pre-call cache whose age is strictly below the
ttl — entries with age ≥ ttl are pruned before the similarity search, so a
stale entry is never returned, whatever its similarity. -/
theorem get_never_returns_stale (c : SemanticCache) (query : String)
    (now : ℚ) (resp : String)
    (h : (get_cached_response c query now).2 = some resp) :
    ∃ e ∈ c.cache, now - e.timestamp < c.ttl ∧ resp = e.response := by
  rw [get_cached_response] at h
  by_cases hav : c.embeddings_available = true
  · rw [if_pos hav] at h
    obtain ⟨e, hmem, hresp⟩ :=
      getAfterCleanup_some (_cleanup_old_entries c now) query resp h
    obtain ⟨hmem2, hts⟩ := cleanup_mem c now e hmem
    exact ⟨e, hmem2, hts, hresp⟩
  · rw [if_neg hav] at h
    cases h

/-- Closed witness for `get_never_returns_stale`: a one-entry cache whose
fresh entry matches the query at similarity 1 returns that entry's
response. -/
theorem get_never_returns_stale_witness :
    (get_cached_response
        ⟨95/100, 1000, 1, [⟨"q", [1], "r", 0, 0⟩], true, fun _ => some [1]⟩
        "q" 0).2 = some "r" ∧
    (∃ e ∈ (⟨95/100, 1000, 1, [⟨"q", [1], "r", 0, 0⟩], true,
        fun _ => some [1]⟩ : SemanticCache).cache,
      (0 : ℚ) - e.timestamp <
        (⟨95/100, 1000, 1, [⟨"q", [1], "r", 0, 0⟩], true,
          fun _ => some [1]⟩ : SemanticCache).ttl ∧ "r" = e.response) := by
  have hss : sumSq ([1] : List ℚ) = 1 := by
    norm_num [sumSq]
  have hdot : dotList [1] [1] = 1 := by
    norm_num [dotList]
  have hcos : _cosine_similarity [1] [(1 : ℚ)] = some 1 := by
    unfold _cosine_similarity
    rw [if_neg (by rw [hss]; norm_num)]
    rw [hss, hdot]
    norm_num
  have hfb : findBest [1] (95/100) [⟨"q", [1], "r", 0, 0⟩] 0 0 none =
      some 0 := by
    simp only [findBest]
    simp only [hcos]
    rw [if_pos]
    constructor
    · norm_num
    · push_cast
      norm_num
  have hclean : _cleanup_old_entries
      ⟨95/100, 1000, 1, [⟨"q", [1], "r", 0, 0⟩], true, fun _ => some [1]⟩ 0 =
      ⟨95/100, 1000, 1, [⟨"q", [1], "r", 0, 0⟩], true, fun _ => some [1]⟩ := by
    simp only [_cleanup_old_entries]
    norm_num [List.filter_cons, List.filter_nil]
  have heval : (get_cached_response
      ⟨95/100, 1000, 1, [⟨"q", [1], "r", 0, 0⟩], true, fun _ => some [1]⟩
      "q" 0).2 = some "r" := by
    rw [get_cached_response, if_pos rfl, hclean, getAfterCleanup]
    have hge : _get_embedding
        ⟨95/100, 1000, 1, [⟨"q", [1], "r", 0, 0⟩], true, fun _ => some [1]⟩
        "q" = some [1] := rfl
    simp only [hge]
    simp only [hfb]
    rfl
  exact ⟨heval,
    get_never_returns_stale
      ⟨95/100, 1000, 1, [⟨"q", [1], "r", 0, 0⟩], true, fun _ => some [1]⟩
      "q" 0 "r" heval⟩

/-! ## Lemmas about the orchestration engine -/

theorem get_eval_generic (q resp : String) :
    get_cached_response
      ⟨95/100, 1000, 1, [⟨"q", [1], resp, 0, 0⟩], true, fun _ => some [1]⟩
      q 0 =
    (⟨95/100, 1000, 1, [⟨"q", [1], resp, 0, 1⟩], true, fun _ => some [1]⟩,
      some resp) := by
  have hss : sumSq ([1] : List ℚ) = 1 := by norm_num [sumSq]
  have hdot : dotList [1] [1] = 1 := by norm_num [dotList]
  have hcos : _cosine_similarity [1] [(1 : ℚ)] = some 1 := by
    unfold _cosine_similarity
    rw [if_neg (by rw [hss]; norm_num)]
    rw [hss, hdot]
    norm_num
  have hfb : findBest [1] (95/100) [⟨"q", [1], resp, 0, 0⟩] 0 0 none =
      some 0 := by
    simp only [findBest]
    simp only [hcos]
    rw [if_pos]
    constructor
    · norm_num
    · push_cast
      norm_num
  have hclean : _cleanup_old_entries
      ⟨95/100, 1000, 1, [⟨"q", [1], resp, 0, 0⟩], true, fun _ => some [1]⟩ 0 =
      ⟨95/100, 1000, 1, [⟨"q", [1], resp, 0, 0⟩], true, fun _ => some [1]⟩ := by
    simp only [_cleanup_old_entries]
    norm_num [List.filter_cons, List.filter_nil]
  rw [get_cached_response, if_pos rfl, hclean, getAfterCleanup]
  have hge : _get_embedding
      ⟨95/100, 1000, 1, [⟨"q", [1], resp, 0, 0⟩], true, fun _ => some [1]⟩ q =
      some [1] := rfl
  simp only [hge]
  simp only [hfb]
  rfl

/-- C10 counterexample: `chat` tests Python truthiness of the cache probe
result, so a genuine cache hit whose stored response is the EMPTY string does
not return immediately: the user message is appended to the conversation and
the pipeline continues (here, into the empty provider list).  The first
conjunct shows the probe is a hit (`some ""`). -/
theorem chat_empty_cached_response_falls_through :
    (get_cached_response
        ⟨95/100, 1000, 1, [⟨"q", [1], "", 0, 0⟩], true, fun _ => some [1]⟩
        "hello" 0).2 = some "" ∧
    (chat
        ⟨[], fun _ => ⟨0, 0, 0⟩, ⟨100000, 1000000, 10, 8/10⟩, ⟨0, 0, 0, 0, 0⟩,
          some ⟨95/100, 1000, 1, [⟨"q", [1], "", 0, 0⟩], true,
            fun _ => some [1]⟩,
          ⟨⟨10, 4096, true⟩, [], 0⟩, none, [], fun _ => 0⟩
        "hello" none true true false 3 0).1.conversation.history =
      [⟨"user", "hello", none⟩] ∧
    (⟨[], fun _ => ⟨0, 0, 0⟩, ⟨100000, 1000000, 10, 8/10⟩, ⟨0, 0, 0, 0, 0⟩,
        some ⟨95/100, 1000, 1, [⟨"q", [1], "", 0, 0⟩], true,
          fun _ => some [1]⟩,
        ⟨⟨10, 4096, true⟩, [], 0⟩, none, [], fun _ => 0⟩ :
      Orchestrator).conversation.history = [] ∧
    (chat
        ⟨[], fun _ => ⟨0, 0, 0⟩, ⟨100000, 1000000, 10, 8/10⟩, ⟨0, 0, 0, 0, 0⟩,
          some ⟨95/100, 1000, 1, [⟨"q", [1], "", 0, 0⟩], true,
            fun _ => some [1]⟩,
          ⟨⟨10, 4096, true⟩, [], 0⟩, none, [], fun _ => 0⟩
        "hello" none true true false 3 0).2 =
      .error (.valueError "Nessun provider configurato") := by
  have hget := get_eval_generic "hello" ""
  have hcw : 2 * countWords "hello" = 2 := by decide
  have hbud : check_budget ⟨100000, 1000000, 10, 8/10⟩ ⟨0, 0, 0, 0, 0⟩ 0
      (2 * countWords "hello") (_smart_route_model "hello") (fun _ => 0) =
      none := by
    simp only [check_budget]
    rw [hcw]
    norm_num
  have hafter : chatAfterCache
      ⟨[], fun _ => ⟨0, 0, 0⟩, ⟨100000, 1000000, 10, 8/10⟩, ⟨0, 0, 0, 0, 0⟩,
        some ⟨95/100, 1000, 1, [⟨"q", [1], "", 0, 1⟩], true,
          fun _ => some [1]⟩,
        ⟨⟨10, 4096, true⟩, [], 0⟩, none, [], fun _ => 0⟩
      "hello" none true true false 3 0 =
      (⟨[], fun _ => ⟨0, 0, 0⟩, ⟨100000, 1000000, 10, 8/10⟩, ⟨0, 0, 0, 0, 0⟩,
        some ⟨95/100, 1000, 1, [⟨"q", [1], "", 0, 1⟩], true,
          fun _ => some [1]⟩,
        ⟨⟨10, 4096, true⟩, [⟨"user", "hello", none⟩], 0⟩, none, [],
        fun _ => 0⟩,
        .error (.valueError "Nessun provider configurato")) := by
    simp only [chatAfterCache, Option.getD_none, if_true]
    rw [hbud]
    rfl
  have hchat : chat
      ⟨[], fun _ => ⟨0, 0, 0⟩, ⟨100000, 1000000, 10, 8/10⟩, ⟨0, 0, 0, 0, 0⟩,
        some ⟨95/100, 1000, 1, [⟨"q", [1], "", 0, 0⟩], true,
          fun _ => some [1]⟩,
        ⟨⟨10, 4096, true⟩, [], 0⟩, none, [], fun _ => 0⟩
      "hello" none true true false 3 0 =
      (⟨[], fun _ => ⟨0, 0, 0⟩, ⟨100000, 1000000, 10, 8/10⟩, ⟨0, 0, 0, 0, 0⟩,
        some ⟨95/100, 1000, 1, [⟨"q", [1], "", 0, 1⟩], true,
          fun _ => some [1]⟩,
        ⟨⟨10, 4096, true⟩, [⟨"user", "hello", none⟩], 0⟩, none, [],
        fun _ => 0⟩,
        .error (.valueError "Nessun provider configurato")) := by
    rw [chat, if_pos ⟨rfl, rfl⟩]
    simp only [hget]
    rw [if_neg (by simp)]
    exact hafter
  refine ⟨by rw [hget], by rw [hchat], rfl, by rw [hchat]⟩

/-- C10 amended: when caching is enabled and the cache probe returns a hit
with a NON-EMPTY response string, `chat` returns immediately with the cached
content marked `cached = true` and `provider = "cache"`, and the only state
change is the cache's own (hit counter / pruning): the conversation window,
the budget state, the request analytics history and the provider statistics
are all left unchanged.  (A hit carrying the empty string instead falls
through the Python truthiness test — see the counterexample.) -/
theorem chat_cache_hit_frame (o : Orchestrator) (prompt : String)
    (model? : Option String) (uconv utools : Bool) (maxr : Nat) (now : ℚ)
    (sc sc2 : SemanticCache) (r : String)
    (hsc : o.semantic_cache = some sc)
    (hget : get_cached_response sc prompt now = (sc2, some r))
    (hr : r ≠ "") :
    chat o prompt model? uconv true utools maxr now =
      ({ o with semantic_cache := some sc2 },
        .ok ⟨r, "cached", "cache", 0, true, none⟩) ∧
    (chat o prompt model? uconv true utools maxr now).1.conversation =
      o.conversation ∧
    (chat o prompt model? uconv true utools maxr now).1.budget = o.budget ∧
    (chat o prompt model? uconv true utools maxr now).1.request_history =
      o.request_history ∧
    (chat o prompt model? uconv true utools maxr now).1.provider_stats =
      o.provider_stats := by
  have hmain : chat o prompt model? uconv true utools maxr now =
      ({ o with semantic_cache := some sc2 },
        .ok ⟨r, "cached", "cache", 0, true, none⟩) := by
    rw [chat, if_pos ⟨rfl, by rw [hsc]; rfl⟩, hsc]
    simp only [hget]
    rw [if_pos hr]
  refine ⟨hmain, ?_, ?_, ?_, ?_⟩ <;> rw [hmain]

/-- Closed witness for `chat_cache_hit_frame`: a concrete orchestrator whose
cache hits with the non-empty response "r". -/
theorem chat_cache_hit_frame_witness :
    ("r" ≠ "") ∧
    chat
      ⟨[], fun _ => ⟨0, 0, 0⟩, ⟨100000, 1000000, 10, 8/10⟩, ⟨0, 0, 0, 0, 0⟩,
        some ⟨95/100, 1000, 1, [⟨"q", [1], "r", 0, 0⟩], true,
          fun _ => some [1]⟩,
        ⟨⟨10, 4096, true⟩, [], 0⟩, none, [], fun _ => 0⟩
      "q" none true true false 3 0 =
      ({ (⟨[], fun _ => ⟨0, 0, 0⟩, ⟨100000, 1000000, 10, 8/10⟩,
          ⟨0, 0, 0, 0, 0⟩,
          some ⟨95/100, 1000, 1, [⟨"q", [1], "r", 0, 0⟩], true,
            fun _ => some [1]⟩,
          ⟨⟨10, 4096, true⟩, [], 0⟩, none, [], fun _ => 0⟩ : Orchestrator)
            with semantic_cache :=
          (some ⟨95/100, 1000, 1, [⟨"q", [1], "r", 0, 1⟩], true,
            fun _ => some [1]⟩) },
        .ok ⟨"r", "cached", "cache", 0, true, none⟩) := by
  refine ⟨by decide, ?_⟩
  exact (chat_cache_hit_frame
    ⟨[], fun _ => ⟨0, 0, 0⟩, ⟨100000, 1000000, 10, 8/10⟩, ⟨0, 0, 0, 0, 0⟩,
      some ⟨95/100, 1000, 1, [⟨"q", [1], "r", 0, 0⟩], true,
        fun _ => some [1]⟩,
      ⟨⟨10, 4096, true⟩, [], 0⟩, none, [], fun _ => 0⟩
    "q" none true false 3 0
    ⟨95/100, 1000, 1, [⟨"q", [1], "r", 0, 0⟩], true, fun _ => some [1]⟩
    ⟨95/100, 1000, 1, [⟨"q", [1], "r", 0, 1⟩], true, fun _ => some [1]⟩
    "r" rfl (get_eval_generic "q" "r") (by decide)).1

end LinkbayAI
